import Mathlib

/-!
# Verification of the byte-efficiency audit core

Shallow embedding of `src/core/audits/byte-efficiency/byte-efficiency-audit.js`
(the `ByteEfficiencyAudit` class of Lighthouse): the waste-score curve, the
transfer-size estimator, the graph waste simulation engine
(`computeWasteWithGraph` / `computeWasteWithTTIGraph`), and the audit
orchestration (`audit` / `createAuditProduct`).

JavaScript numbers are embedded as rationals (`ℚ`); `undefined` becomes
`Option`; thrown exceptions become `Except`; mutation of the shared dependency
graph becomes explicit state passing (functions return the post-call graph).
External collaborators (the load simulator, the pessimistic-graph selectors,
the `audit_` detector hook) are parameters of the embedding.
-/

namespace ByteEfficiency

/-- JavaScript `Math.round`: round half toward positive infinity. -/
def jsRound (q : ℚ) : ℤ := ⌊q + 1/2⌋

/-- The rounding `Math.round(Math.max(savings, 0) / 10) * 10` applied to all
surfaced savings values. -/
def roundSavings (savings : ℚ) : ℚ := (jsRound (max savings 0 / 10) : ℚ) * 10

/-- Modelled from the spec: `linearInterpolation` lives in
`core/lib/statistics.js`, which is not under `src/`; the spec says the score
curve performs "piecewise-linear interpolation across four anchor points" and
"between anchors, linearly interpolate". -/
def linearInterpolation (x0 y0 x1 y1 x : ℚ) : ℚ :=
  y0 + (x - x0) * ((y1 - y0) / (x1 - x0))

def WASTED_MS_FOR_AVERAGE : ℚ := 300

def WASTED_MS_FOR_POOR : ℚ := 750

def WASTED_MS_FOR_SCORE_OF_ZERO : ℚ := 5000

/-- Embeds `ByteEfficiencyAudit.scoreForWastedMs`. -/
def scoreForWastedMs (wastedMs : ℚ) : ℚ :=
  if wastedMs ≤ 0 then 1
  else if wastedMs < WASTED_MS_FOR_AVERAGE then
    linearInterpolation 0 1 WASTED_MS_FOR_AVERAGE 0.75 wastedMs
  else if wastedMs < WASTED_MS_FOR_POOR then
    linearInterpolation WASTED_MS_FOR_AVERAGE 0.75 WASTED_MS_FOR_POOR 0.5 wastedMs
  else
    max 0 (linearInterpolation WASTED_MS_FOR_POOR 0.5 WASTED_MS_FOR_SCORE_OF_ZERO 0 wastedMs)

/-- A network request record as `estimateTransferSize` reads it: `transferSize`
and `resourceSize` may be `undefined` (the code guards both with `|| 0`), and
`resourceType` is an optional string. -/
structure NetworkRecord where
  resourceType : Option String
  transferSize : Option ℚ
  resourceSize : Option ℚ
deriving DecidableEq

/-- Embeds `ByteEfficiencyAudit.estimateTransferSize`.  `Number.isFinite` is always
true on rationals, so the invalid-ratio guard reduces to `resourceSize > 0`. -/
def estimateTransferSize (networkRecord : Option NetworkRecord) (totalBytes : ℚ)
    (resourceType : Option String) : ℚ :=
  match networkRecord with
  | none =>
    match resourceType with
    | some "Stylesheet" => (jsRound (totalBytes * 0.2) : ℚ)
    | some "Script" => (jsRound (totalBytes * 0.33) : ℚ)
    | some "Document" => (jsRound (totalBytes * 0.33) : ℚ)
    | _ => (jsRound (totalBytes * 0.5) : ℚ)
  | some record =>
    if record.resourceType = resourceType then
      record.transferSize.getD 0
    else
      let transferSize := record.transferSize.getD 0
      let resourceSize := record.resourceSize.getD 0
      let compressionRatio := if 0 < resourceSize then transferSize / resourceSize else 1
      (jsRound (totalBytes * compressionRatio) : ℚ)

/-! ## The dependency graph and the waste simulation engine -/

/-- The fields of `node.record` that `computeWasteWithGraph` reads and writes. -/
structure NodeRecord where
  requestId : String
  url : String
  transferSize : ℚ
deriving DecidableEq

/-- A dependency-graph node: `node.type === 'network'` carries a record; any
other node type (CPU task) is untouched by the engine. -/
inductive GraphNode where
  | network (record : NodeRecord)
  | cpu (id : ℕ)
deriving DecidableEq

/-- Since `graph.traverse` enumerates all nodes, the graph is embedded as that
enumeration. -/
abbrev Graph := List GraphNode

/-- One entry of the detector's `results` array, as read by the engine. -/
structure ByteItem where
  url : String
  wastedBytes : ℚ
deriving DecidableEq

/-- A JavaScript `Map<string, number>` used only through `get` and `set`. -/
abbrev UrlMap := String → Option ℚ

def emptyMap : UrlMap := fun _ => none

def mapSet (m : UrlMap) (k : String) (v : ℚ) : UrlMap :=
  fun q => if q = k then some v else m q

/-- The aggregation loop
`wastedBytesByUrl.set(url, (wastedBytesByUrl.get(url) || 0) + wastedBytes)`. -/
def sumWastedBytes (results : List ByteItem) : UrlMap :=
  results.foldl (fun m item => mapSet m item.url ((m item.url).getD 0 + item.wastedBytes)) emptyMap

/-- The mutation traversal of `computeWasteWithGraph`: for each network node
whose url has a truthy (`!wastedBytes` fails, i.e. present and nonzero) entry,
save the current `transferSize` under the node's `requestId` and overwrite it
with `max(original - wastedBytes, 0)`.  Returns the mutated node list and the
final `originalTransferSizes` map. -/
def applyWaste (w : UrlMap) : Graph → UrlMap → Graph × UrlMap
  | [], originals => ([], originals)
  | GraphNode.cpu i :: rest, originals =>
    let res := applyWaste w rest originals
    (GraphNode.cpu i :: res.1, res.2)
  | GraphNode.network r :: rest, originals =>
    match w r.url with
    | none =>
      let res := applyWaste w rest originals
      (GraphNode.network r :: res.1, res.2)
    | some wastedBytes =>
      if wastedBytes = 0 then
        let res := applyWaste w rest originals
        (GraphNode.network r :: res.1, res.2)
      else
        let saved := mapSet originals r.requestId r.transferSize
        let r2 : NodeRecord := { r with transferSize := max (r.transferSize - wastedBytes) 0 }
        let res := applyWaste w rest saved
        (GraphNode.network r2 :: res.1, res.2)

/-- The restore traversal: every network node whose `requestId` is present in
`originalTransferSizes` gets that saved value written back. -/
def restoreNode (originals : UrlMap) : GraphNode → GraphNode
  | GraphNode.cpu i => GraphNode.cpu i
  | GraphNode.network r =>
    match originals r.requestId with
    | none => GraphNode.network r
    | some ts => GraphNode.network { r with transferSize := ts }

def restore (originals : UrlMap) (g : Graph) : Graph := g.map (restoreNode originals)

/-- The effect of the mutation traversal on a single node, used to state what
`applyWaste` does pointwise. -/
def mutateOne (w : UrlMap) : GraphNode → GraphNode
  | GraphNode.cpu i => GraphNode.cpu i
  | GraphNode.network r =>
    match w r.url with
    | none => GraphNode.network r
    | some wastedBytes =>
      if wastedBytes = 0 then GraphNode.network r
      else GraphNode.network { r with transferSize := max (r.transferSize - wastedBytes) 0 }

/-- The request identifiers of the network nodes of a graph, in traversal
order. -/
def requestIds (g : Graph) : List String :=
  g.filterMap fun node =>
    match node with
    | GraphNode.network r => some r.requestId
    | GraphNode.cpu _ => none

/-- A `LH.Gatherer.Simulation.Result`: the engine reads `timeInMs` and passes
`nodeTimings` (of arbitrary type `τ`) to the external
`LanternInteractive.getLastLongTaskEndTime`. -/
structure SimResult (τ : Type) where
  timeInMs : ℚ
  nodeTimings : τ
deriving DecidableEq

/-- The external load simulator.  `simulate(graph, {label})` may throw
(embedded as `Except`); `computeWastedMsFromWastedBytes` is its byte-to-time
conversion used outside navigation mode. -/
structure Simulator (τ : Type) where
  simulate : Graph → String → Except String (SimResult τ)
  computeWastedMsFromWastedBytes : ℚ → ℚ

/-- The `options` parameter of `computeWasteWithGraph`; `Object.assign({label: ''}, options)`
defaults a missing label to the empty string. -/
structure WasteOptions where
  label : Option String := none
  providedWastedBytesByUrl : Option UrlMap := none

/-- The successful return value of `computeWasteWithGraph`. -/
structure WasteResult (τ : Type) where
  savings : ℚ
  simulationBeforeChanges : SimResult τ
  simulationAfterChanges : SimResult τ
deriving DecidableEq

/-- The label `` `${this.meta.id}-${options.label}-before` ``; `Object.assign({label: ''}, options)`
defaults a missing label to the empty string. -/
def beforeLabel (metaId : String) (options : WasteOptions) : String :=
  metaId ++ "-" ++ options.label.getD "" ++ "-before"

/-- The label `` `${this.meta.id}-${options.label}-after` ``. -/
def afterLabel (metaId : String) (options : WasteOptions) : String :=
  metaId ++ "-" ++ options.label.getD "" ++ "-after"

/-- Lines 167-172: use `options.providedWastedBytesByUrl` verbatim when
supplied, otherwise sum `wastedBytes` grouped by `url` over `results`. -/
def effectiveWastedBytesByUrl (options : WasteOptions) (results : List ByteItem) : UrlMap :=
  match options.providedWastedBytesByUrl with
  | some provided => provided
  | none => sumWastedBytes results

/-- Embeds `ByteEfficiencyAudit.computeWasteWithGraph`.  The shared graph is threaded
explicitly: the second component of the result is the state of the graph when
the call returns or when a thrown simulator error escapes (the restore
traversal runs only after the second simulation returns).  `metaId` stands for
`this.meta.id` of the concrete audit subclass. -/
def computeWasteWithGraph (metaId : String) (results : List ByteItem) (graph : Graph)
    (simulator : Simulator τ) (options : WasteOptions) :
    Except String (WasteResult τ) × Graph :=
  match simulator.simulate graph (beforeLabel metaId options) with
  | Except.error e => (Except.error e, graph)
  | Except.ok simulationBeforeChanges =>
    let w := effectiveWastedBytesByUrl options results
    let mutated := (applyWaste w graph emptyMap).1
    match simulator.simulate mutated (afterLabel metaId options) with
    | Except.error e => (Except.error e, mutated)
    | Except.ok simulationAfterChanges =>
      let restored := restore (applyWaste w graph emptyMap).2 mutated
      let savings := simulationBeforeChanges.timeInMs - simulationAfterChanges.timeInMs
      (Except.ok
        { savings := roundSavings savings
          simulationBeforeChanges := simulationBeforeChanges
          simulationAfterChanges := simulationAfterChanges },
       restored)

/-- The `options` parameter of `computeWasteWithTTIGraph`;
`Object.assign({includeLoad: true}, options)` defaults `includeLoad`. -/
structure TTIOptions where
  includeLoad : Option Bool := none
  providedWastedBytesByUrl : Option UrlMap := none

/-- Embeds `ByteEfficiencyAudit.computeWasteWithTTIGraph`.  The external
`LanternInteractive.getLastLongTaskEndTime` is a parameter
`lastLongTaskEndTime`. -/
def computeWasteWithTTIGraph (metaId : String) (lastLongTaskEndTime : τ → ℚ)
    (results : List ByteItem) (graph : Graph) (simulator : Simulator τ)
    (options : TTIOptions) : Except String ℚ × Graph :=
  let includeLoad := options.includeLoad.getD true
  let overall := computeWasteWithGraph metaId results graph simulator
    { label := some "overallLoad"
      providedWastedBytesByUrl := options.providedWastedBytesByUrl }
  match overall.1 with
  | Except.error e => (Except.error e, overall.2)
  | Except.ok r =>
    let savingsOnTTI :=
      lastLongTaskEndTime r.simulationBeforeChanges.nodeTimings -
        lastLongTaskEndTime r.simulationAfterChanges.nodeTimings
    let savings := if includeLoad then max savingsOnTTI r.savings else savingsOnTTI
    (Except.ok (roundSavings savings), overall.2)

/-! ## The audit orchestration -/

/-- The `ByteEfficiencyProduct` returned by the subclass hook `audit_`. -/
structure DetectorResult where
  items : List ByteItem
  wastedBytesByUrl : Option UrlMap := none
  headings : List String := []
  displayValue : Option String := none
  explanation : Option String := none
  warnings : Option (List String) := none
  sortedBy : Option (List String) := none

/-- One step of a stable descending sort by `wastedBytes`: insert `a` after
every element it does not strictly exceed.  This realises
`result.items.sort((itemA, itemB) => itemB.wastedBytes - itemA.wastedBytes)`,
JavaScript's `Array.prototype.sort` being stable. -/
def insertItem (a : ByteItem) : List ByteItem → List ByteItem
  | [] => [a]
  | b :: rest =>
    if b.wastedBytes < a.wastedBytes then a :: b :: rest else b :: insertItem a rest

/-- Stable descending sort by `wastedBytes` (insertion order preserved for
ties). -/
def sortDesc (items : List ByteItem) : List ByteItem :=
  items.foldl (fun acc x => insertItem x acc) []

/-- The `displayValue` the product carries: the caller-provided message, the
synthesized byte-savings message (`str_(i18n.UIStrings.displayValueByteSavings,
{wastedBytes})`), or the empty string. -/
inductive DisplayValue where
  | provided (message : String)
  | byteSavings (wastedBytes : ℚ)
  | emptyString
deriving DecidableEq

/-- Modelled from the spec: `Audit.makeOpportunityDetails` lives in
`core/audits/audit.js`, which is not under `src/`; the spec only requires the
product to carry "ranked item list with per-item waste" and the overall
savings, so the embedding records the constructor's arguments. -/
structure OpportunityDetails where
  headings : List String
  items : List ByteItem
  overallSavingsMs : ℚ
  overallSavingsBytes : ℚ
  sortedBy : List String
deriving DecidableEq

structure MetricSavings where
  FCP : ℚ
  LCP : ℚ
deriving DecidableEq

/-- The `LH.Audit.Product` built by `createAuditProduct`. -/
structure AuditProduct where
  explanation : Option String
  warnings : Option (List String)
  displayValue : DisplayValue
  numericValue : ℚ
  numericUnit : String
  score : ℚ
  details : OpportunityDetails
  metricSavings : MetricSavings
deriving DecidableEq

/-- Lines 289-309 of the source: display value, details and final product
assembly, shared by both gather-mode branches. -/
def finishProduct (result : DetectorResult) (results : List ByteItem) (wastedBytes wastedMs : ℚ)
    (metricSavings : MetricSavings) : AuditProduct :=
  let displayValue :=
    match result.displayValue with
    | some s => DisplayValue.provided s
    | none => if wastedBytes ≠ 0 then DisplayValue.byteSavings wastedBytes else DisplayValue.emptyString
  let sortedBy := result.sortedBy.getD ["wastedBytes"]
  { explanation := result.explanation
    warnings := result.warnings
    displayValue := displayValue
    numericValue := wastedMs
    numericUnit := "millisecond"
    score := scoreForWastedMs wastedMs
    details :=
      { headings := result.headings
        items := results
        overallSavingsMs := wastedMs
        overallSavingsBytes := wastedBytes
        sortedBy := sortedBy }
    metricSavings := metricSavings }

/-- Embeds `ByteEfficiencyAudit.createAuditProduct`.  The external pessimistic-graph
selectors (`LanternFirstContentfulPaint.getPessimisticGraph`,
`LanternLargestContentfulPaint.getPessimisticGraph`) and
`getLastLongTaskEndTime` are parameters; `ν` is the type of the processed
navigation.  Thrown errors become `Except.error`; the second component is the
post-call state of the caller's `result.items` array, which line 248 sorts in
place before anything can throw. -/
def createAuditProduct (metaId : String) (lastLongTaskEndTime : τ → ℚ)
    (fcpPessimisticGraph lcpPessimisticGraph : Graph → ν → Graph)
    (result : DetectorResult) (graph : Option Graph) (simulator : Simulator τ)
    (processedNavigation : Option ν) (gatherMode : String) :
    Except String AuditProduct × List ByteItem :=
  let results := sortDesc result.items
  let wastedBytes := results.foldl (fun sum item => sum + item.wastedBytes) 0
  if gatherMode = "navigation" then
    match graph with
    | none =>
      (Except.error "Page dependency graph should always be computed in navigation mode", results)
    | some g =>
      match processedNavigation with
      | none =>
        (Except.error "Processed navigation should always be computed in navigation mode", results)
      | some nav =>
        match (computeWasteWithTTIGraph metaId lastLongTaskEndTime results g simulator
            { providedWastedBytesByUrl := result.wastedBytesByUrl }).1 with
        | Except.error e => (Except.error e, results)
        | Except.ok wastedMs =>
          let fcpGraph := fcpPessimisticGraph g nav
          let lcpGraph := lcpPessimisticGraph g nav
          match (computeWasteWithGraph metaId results fcpGraph simulator
              { providedWastedBytesByUrl := result.wastedBytesByUrl, label := some "fcp" }).1 with
          | Except.error e => (Except.error e, results)
          | Except.ok fcpResult =>
            match (computeWasteWithGraph metaId results lcpGraph simulator
                { providedWastedBytesByUrl := result.wastedBytesByUrl, label := some "lcp" }).1 with
            | Except.error e => (Except.error e, results)
            | Except.ok lcpResult =>
              (Except.ok
                (finishProduct result results wastedBytes wastedMs
                  { FCP := fcpResult.savings, LCP := lcpResult.savings }),
               results)
  else
    let wastedMs := simulator.computeWastedMsFromWastedBytes wastedBytes
    (Except.ok (finishProduct result results wastedBytes wastedMs { FCP := 0, LCP := 0 }), results)

/-- A network record as the top-level `audit` reads it: only
`record.transferSize` truthiness matters (`networkRecords.some(record => record.transferSize)`). -/
structure NetRecord where
  transferSize : Option ℚ
deriving DecidableEq

/-- The slice of `LH.Artifacts` the top-level `audit` reads; `θ` is the trace
type, `δ` the devtools-log type, `υ` the URL artifact type. -/
structure Artifacts (δ θ υ : Type) where
  gatherMode : String
  trace : θ
  devtoolsLog : δ
  url : υ

/-- The external computed-artifact providers `audit` awaits. -/
structure Collaborators (δ θ υ τ ν : Type) where
  networkRecords : δ → List NetRecord
  pageDependencyGraph : θ → δ → υ → Graph
  loadSimulator : δ → Simulator τ
  processedNavigation : θ → ν
  lastLongTaskEndTime : τ → ℚ
  fcpPessimisticGraph : Graph → ν → Graph
  lcpPessimisticGraph : Graph → ν → Graph

/-- The two shapes `audit` can return: the early
`{score: 1, notApplicable: true}` object, or a full product. -/
inductive AuditOutcome where
  | notApplicable (score : ℚ)
  | completed (product : AuditProduct)

/-- Embeds `ByteEfficiencyAudit.audit`.  The subclass hook `audit_` (which may throw)
and the collaborators are parameters; `Promise.all` of independent
computations is sequentialised. -/
def audit (metaId : String)
    (detector : Artifacts δ θ υ → List NetRecord → Except String DetectorResult)
    (co : Collaborators δ θ υ τ ν) (artifacts : Artifacts δ θ υ) :
    Except String AuditOutcome :=
  let networkRecords := co.networkRecords artifacts.devtoolsLog
  let hasContentfulRecords := networkRecords.any fun record =>
    match record.transferSize with
    | none => false
    | some t => decide (t ≠ 0)
  if ¬hasContentfulRecords ∧ artifacts.gatherMode = "timespan" then
    Except.ok (AuditOutcome.notApplicable 1)
  else
    match detector artifacts networkRecords with
    | Except.error e => Except.error e
    | Except.ok result =>
      let graph :=
        if artifacts.gatherMode = "navigation" then
          some (co.pageDependencyGraph artifacts.trace artifacts.devtoolsLog artifacts.url)
        else none
      let simulator := co.loadSimulator artifacts.devtoolsLog
      let processedNavigation :=
        if artifacts.gatherMode = "navigation" then
          some (co.processedNavigation artifacts.trace)
        else none
      match (createAuditProduct metaId co.lastLongTaskEndTime co.fcpPessimisticGraph
          co.lcpPessimisticGraph result graph simulator processedNavigation
          artifacts.gatherMode).1 with
      | Except.error e => Except.error e
      | Except.ok product => Except.ok (AuditOutcome.completed product)

/-! ## Concrete fixtures used by witnesses and counterexamples -/

def okRecord : NodeRecord := { requestId := "r1", url := "u", transferSize := 100 }

/-- A two-node graph: one network request and one CPU task. -/
def okGraph : Graph := [GraphNode.network okRecord, GraphNode.cpu 0]

/-- A simulator that always succeeds with a 100 ms result. -/
def okSim : Simulator Unit :=
  { simulate := fun _ _ => Except.ok { timeInMs := 100, nodeTimings := () }
    computeWastedMsFromWastedBytes := fun b => b }

def okResults : List ByteItem := [{ url := "u", wastedBytes := 30 }]

/-- A one-node graph used to exhibit the missing error-path restore. -/
def cexGraph : Graph := [GraphNode.network okRecord]

/-- A simulator that succeeds on the pristine graph and throws on any mutated
one, making the second (after-changes) invocation of
`computeWasteWithGraph` raise an error. -/
def cexSim : Simulator Unit :=
  { simulate := fun g _ =>
      if g = cexGraph then Except.ok { timeInMs := 100, nodeTimings := () }
      else Except.error "boom"
    computeWastedMsFromWastedBytes := fun b => b }

/-- A wasted-bytes map holding a negative entry for url `u`. -/
def negMap : UrlMap := mapSet emptyMap "u" (-50)

/-- A wasted-bytes map holding a positive entry for url `u`. -/
def posMap : UrlMap := mapSet emptyMap "u" 30

/-! ## Helper lemmas -/

theorem jsRound_nonneg {q : ℚ} (h : 0 ≤ q) : 0 ≤ jsRound q := by
  unfold jsRound
  exact Int.floor_nonneg.mpr (by linarith)

theorem roundSavings_mul10 (s : ℚ) : ∃ k : ℤ, 0 ≤ k ∧ roundSavings s = k * 10 := by
  refine ⟨jsRound (max s 0 / 10), jsRound_nonneg ?_, rfl⟩
  positivity

theorem roundSavings_close (s : ℚ) : |roundSavings s - max s 0| ≤ 5 := by
  unfold roundSavings jsRound
  set x := max s 0 with hx
  have h1 : (⌊x / 10 + 1/2⌋ : ℚ) ≤ x / 10 + 1/2 := Int.floor_le _
  have h2 : x / 10 + 1/2 - 1 < (⌊x / 10 + 1/2⌋ : ℚ) := Int.sub_one_lt_floor _
  rw [abs_le]
  constructor <;> nlinarith

/-- Closed form of the score curve after unfolding `linearInterpolation`. -/
theorem scoreForWastedMs_eq (w : ℚ) :
    scoreForWastedMs w =
      if w ≤ 0 then 1
      else if w < 300 then 1 - w / 1200
      else if w < 750 then 0.75 - (w - 300) / 1800
      else max 0 (0.5 - (w - 750) / 8500) := by
  unfold scoreForWastedMs linearInterpolation WASTED_MS_FOR_AVERAGE WASTED_MS_FOR_POOR
    WASTED_MS_FOR_SCORE_OF_ZERO
  split_ifs <;> ring_nf

/-- C3: the score curve hits the spec's anchor values, is monotonically
non-increasing on all of ℚ, and stays in [0, 1]; negative or zero wasted time
scores 1 and everything at or beyond 5000 ms scores 0. -/
theorem scoreForWastedMs_spec :
    (∀ w : ℚ, w ≤ 0 → scoreForWastedMs w = 1) ∧
    scoreForWastedMs 300 = 0.75 ∧
    scoreForWastedMs 750 = 0.5 ∧
    (∀ w : ℚ, 5000 ≤ w → scoreForWastedMs w = 0) ∧
    (∀ w₁ w₂ : ℚ, w₁ ≤ w₂ → scoreForWastedMs w₂ ≤ scoreForWastedMs w₁) ∧
    (∀ w : ℚ, 0 ≤ scoreForWastedMs w ∧ scoreForWastedMs w ≤ 1) := by
  refine ⟨?_, ?_, ?_, ?_, ?_, ?_⟩
  · intro w h
    rw [scoreForWastedMs_eq, if_pos h]
  · rw [scoreForWastedMs_eq]
    norm_num
  · rw [scoreForWastedMs_eq]
    norm_num
  · intro w h
    rw [scoreForWastedMs_eq]
    split_ifs <;> try linarith
    exact max_eq_left (by linarith)
  · intro w₁ w₂ h
    rw [scoreForWastedMs_eq, scoreForWastedMs_eq]
    split_ifs <;>
      first
        | linarith
        | exact max_le_max le_rfl (by linarith)
        | exact max_le (by linarith) (by linarith)
  · intro w
    rw [scoreForWastedMs_eq]
    split_ifs <;>
      refine ⟨?_, ?_⟩ <;>
        first
          | linarith
          | exact le_max_left _ _
          | exact max_le (by linarith) (by linarith)

theorem scoreForWastedMs_spec_witness :
    scoreForWastedMs (-5) = 1 ∧ scoreForWastedMs 6000 = 0 ∧
      scoreForWastedMs 400 ≤ scoreForWastedMs 100 ∧
      0 ≤ scoreForWastedMs 123 ∧ scoreForWastedMs 123 ≤ 1 :=
  ⟨scoreForWastedMs_spec.1 (-5) (by norm_num),
   scoreForWastedMs_spec.2.2.2.1 6000 (by norm_num),
   scoreForWastedMs_spec.2.2.2.2.1 100 400 (by norm_num),
   (scoreForWastedMs_spec.2.2.2.2.2 123).1,
   (scoreForWastedMs_spec.2.2.2.2.2 123).2⟩

/-- C5: with a network record present, a matching resource type returns the
record's transfer size (0 when unmeasured) for every `totalBytes`, and a
mismatching type returns `totalBytes` times the record's compression ratio
(`transferSize / resourceSize`, defaulting to 1 when `resourceSize` is not
strictly positive), rounded. -/
theorem estimateTransferSize_record_spec (record : NetworkRecord) (totalBytes : ℚ)
    (resourceType : Option String) :
    (record.resourceType = resourceType →
      estimateTransferSize (some record) totalBytes resourceType =
        record.transferSize.getD 0) ∧
    (record.resourceType ≠ resourceType →
      estimateTransferSize (some record) totalBytes resourceType =
        (jsRound (totalBytes *
          (if record.resourceSize.getD 0 ≤ 0 then 1
           else record.transferSize.getD 0 / record.resourceSize.getD 0)) : ℚ)) := by
  constructor
  · intro hEq
    simp [estimateTransferSize, hEq]
  · intro hNe
    simp only [estimateTransferSize, if_neg hNe]
    congr 2
    rcases lt_or_le 0 (record.resourceSize.getD 0) with hpos | hnonpos
    · rw [if_pos hpos, if_neg (not_le.mpr hpos)]
    · rw [if_neg (not_lt.mpr hnonpos), if_pos hnonpos]

theorem estimateTransferSize_record_spec_witness :
    estimateTransferSize
        (some { resourceType := some "Script", transferSize := some 4000, resourceSize := some 800 })
        123456 (some "Script") = 4000 ∧
      estimateTransferSize
        (some { resourceType := some "Document", transferSize := some 100, resourceSize := some 0 })
        500 (some "Script") = 500 := by
  constructor
  · have h := (estimateTransferSize_record_spec
      { resourceType := some "Script", transferSize := some 4000, resourceSize := some 800 }
      123456 (some "Script")).1 rfl
    rw [h]
    rfl
  · have h := (estimateTransferSize_record_spec
      { resourceType := some "Document", transferSize := some 100, resourceSize := some 0 }
      500 (some "Script")).2 (by simp)
    rw [h]
    norm_num [jsRound]

/-- C6: with no record, the estimator applies the fixed compression-ratio
heuristic (stylesheet ×0.2, script/document ×0.33, everything else ×0.5),
matches the spec's three concrete values, and never returns a negative
number. -/
theorem estimateTransferSize_heuristic_spec :
    (∀ totalBytes : ℚ,
      estimateTransferSize none totalBytes (some "Stylesheet") =
          (jsRound (totalBytes * 0.2) : ℚ) ∧
        estimateTransferSize none totalBytes (some "Script") =
          (jsRound (totalBytes * 0.33) : ℚ) ∧
        estimateTransferSize none totalBytes (some "Document") =
          (jsRound (totalBytes * 0.33) : ℚ) ∧
        (∀ resourceType : Option String, resourceType ≠ some "Stylesheet" →
          resourceType ≠ some "Script" → resourceType ≠ some "Document" →
          estimateTransferSize none totalBytes resourceType =
            (jsRound (totalBytes * 0.5) : ℚ)) ∧
        (0 ≤ totalBytes →
          ∀ resourceType : Option String,
            0 ≤ estimateTransferSize none totalBytes resourceType)) ∧
    estimateTransferSize none 1000 (some "Stylesheet") = 200 ∧
    estimateTransferSize none 1000 (some "Script") = 330 ∧
    estimateTransferSize none 1000 none = 500 := by
  have hcases : ∀ (totalBytes : ℚ) (resourceType : Option String),
      estimateTransferSize none totalBytes resourceType = (jsRound (totalBytes * 0.2) : ℚ) ∨
      estimateTransferSize none totalBytes resourceType = (jsRound (totalBytes * 0.33) : ℚ) ∨
      estimateTransferSize none totalBytes resourceType = (jsRound (totalBytes * 0.5) : ℚ) := by
    intro totalBytes resourceType
    unfold estimateTransferSize
    split
    next => split <;> simp
    next h => exact Option.noConfusion h
  refine ⟨fun totalBytes => ⟨rfl, rfl, rfl, ?_, ?_⟩, by norm_num [estimateTransferSize, jsRound],
    by norm_num [estimateTransferSize, jsRound], by norm_num [estimateTransferSize, jsRound]⟩
  · intro resourceType h1 h2 h3
    unfold estimateTransferSize
    split
    next => split <;> simp_all
    next h => exact Option.noConfusion h
  · intro hnn resourceType
    have hround : ∀ c : ℚ, 0 ≤ c → (0 : ℚ) ≤ (jsRound (totalBytes * c) : ℚ) := by
      intro c hc
      exact_mod_cast jsRound_nonneg (mul_nonneg hnn hc)
    rcases hcases totalBytes resourceType with h | h | h <;>
      rw [h] <;> [exact hround 0.2 (by norm_num); exact hround 0.33 (by norm_num);
        exact hround 0.5 (by norm_num)]

theorem estimateTransferSize_heuristic_spec_witness :
    estimateTransferSize none 1000 (some "Font") = 500 ∧
      0 ≤ estimateTransferSize none 1000 (some "Font") :=
  ⟨((estimateTransferSize_heuristic_spec.1 1000).2.2.2.1 (some "Font") (by decide) (by decide)
      (by decide)).trans (by norm_num [jsRound]),
   (estimateTransferSize_heuristic_spec.1 1000).2.2.2.2 (by norm_num) (some "Font")⟩

/-! ## Structure of the mutation and restore traversals -/

theorem requestIds_cons_cpu (i : ℕ) (rest : Graph) :
    requestIds (GraphNode.cpu i :: rest) = requestIds rest := by
  simp [requestIds]

theorem requestIds_cons_network (r : NodeRecord) (rest : Graph) :
    requestIds (GraphNode.network r :: rest) = r.requestId :: requestIds rest := by
  simp [requestIds]

/-- The mutated node list does not depend on the accumulated save map: it is a
pointwise map of `mutateOne` over the graph. -/
theorem applyWaste_fst (w : UrlMap) :
    ∀ (g : Graph) (originals : UrlMap), (applyWaste w g originals).1 = g.map (mutateOne w) := by
  intro g
  induction g with
  | nil => intro originals; rfl
  | cons node rest ih =>
    intro originals
    cases node with
    | cpu i => simp [applyWaste, mutateOne, ih]
    | network r =>
      cases hw : w r.url with
      | none => simp [applyWaste, mutateOne, hw, ih]
      | some wb =>
        by_cases hz : wb = 0 <;> simp [applyWaste, mutateOne, hw, hz, ih]

/-- The save map is changed only at keys that are request identifiers of
network nodes of the traversed graph. -/
theorem applyWaste_snd_eq (w : UrlMap) :
    ∀ (g : Graph) (originals : UrlMap) (k : String), k ∉ requestIds g →
      (applyWaste w g originals).2 k = originals k := by
  intro g
  induction g with
  | nil => intro o k _; rfl
  | cons node rest ih =>
    intro o k hk
    cases node with
    | cpu i =>
      rw [requestIds_cons_cpu] at hk
      simpa [applyWaste] using ih o k hk
    | network r =>
      rw [requestIds_cons_network, List.mem_cons] at hk
      push_neg at hk
      cases hw : w r.url with
      | none => simpa [applyWaste, hw] using ih o k hk.2
      | some wb =>
        by_cases hz : wb = 0
        · simpa [applyWaste, hw, hz] using ih o k hk.2
        · have := ih (mapSet o r.requestId r.transferSize) k hk.2
          simp [applyWaste, hw, hz, this, mapSet, hk.1]

/-- When network request identifiers are distinct and start unsaved, the
restore traversal applied to the final save map undoes the mutation traversal
exactly. -/
theorem restore_applyWaste (w : UrlMap) :
    ∀ (g : Graph) (originals : UrlMap), (requestIds g).Nodup →
      (∀ k, k ∈ requestIds g → originals k = none) →
      restore (applyWaste w g originals).2 (applyWaste w g originals).1 = g := by
  intro g
  induction g with
  | nil => intro o _ _; rfl
  | cons node rest ih =>
    intro o hnodup hnone
    cases node with
    | cpu i =>
      rw [requestIds_cons_cpu] at hnodup hnone
      have hrest := ih o hnodup hnone
      simpa [applyWaste, restore, restoreNode] using hrest
    | network r =>
      rw [requestIds_cons_network] at hnodup hnone
      have hnotmem : r.requestId ∉ requestIds rest := (List.nodup_cons.mp hnodup).1
      have hnodup' : (requestIds rest).Nodup := (List.nodup_cons.mp hnodup).2
      have hself : o r.requestId = none := hnone _ (List.mem_cons_self _ _)
      have hnone' : ∀ k, k ∈ requestIds rest → o k = none := fun k hk =>
        hnone k (List.mem_cons_of_mem _ hk)
      cases hw : w r.url with
      | none =>
        have hkey : (applyWaste w rest o).2 r.requestId = none :=
          (applyWaste_snd_eq w rest o _ hnotmem).trans hself
        have hrest := ih o hnodup' hnone'
        simp only [applyWaste, hw, restore, List.map_cons] at hrest ⊢
        simp [restoreNode, hkey, hrest]
      | some wb =>
        by_cases hz : wb = 0
        · have hkey : (applyWaste w rest o).2 r.requestId = none :=
            (applyWaste_snd_eq w rest o _ hnotmem).trans hself
          have hrest := ih o hnodup' hnone'
          simp only [applyWaste, hw, hz, restore, List.map_cons, if_true] at hrest ⊢
          simp [restoreNode, hkey, hrest]
        · have hsaved : ∀ k, k ∈ requestIds rest →
              mapSet o r.requestId r.transferSize k = none := by
            intro k hk
            have hne : k ≠ r.requestId := fun h => hnotmem (h ▸ hk)
            simp only [mapSet, if_neg hne]
            exact hnone' k hk
          have hkey : (applyWaste w rest (mapSet o r.requestId r.transferSize)).2 r.requestId =
              some r.transferSize := by
            rw [applyWaste_snd_eq w rest _ _ hnotmem]
            simp [mapSet]
          have hrest := ih (mapSet o r.requestId r.transferSize) hnodup' hsaved
          simp only [applyWaste, hw, hz, restore, List.map_cons, if_neg] at hrest ⊢
          simp [restoreNode, hkey, hrest]

/-- Mutating with an everywhere-empty wasted-bytes map is the identity. -/
theorem applyWaste_emptyMap : ∀ (g : Graph) (o : UrlMap), applyWaste emptyMap g o = (g, o) := by
  intro g
  induction g with
  | nil => intro o; rfl
  | cons node rest ih =>
    intro o
    cases node <;> simp [applyWaste, emptyMap, ih]

/-- Restoring from an empty save map is the identity. -/
theorem restore_emptyMap (g : Graph) : restore emptyMap g = g := by
  induction g with
  | nil => rfl
  | cons node rest ih => cases node <;> simp [restore, restoreNode, emptyMap] <;> exact ih

/-! ## C1: transactional graph mutation -/

/-- C1 counterexample: the restore traversal runs only after the second
simulation returns, so when that simulation throws (`cexSim` fails on the
mutated graph), the call propagates the error and leaves the network node's
`transferSize` at its mutated value 70 instead of its pre-call value 100. -/
theorem computeWasteWithGraph_error_leaves_mutation :
    (computeWasteWithGraph "a" okResults cexGraph cexSim {}).1 = Except.error "boom" ∧
    (computeWasteWithGraph "a" okResults cexGraph cexSim {}).2 =
      [GraphNode.network { requestId := "r1", url := "u", transferSize := 70 }] ∧
    cexGraph = [GraphNode.network { requestId := "r1", url := "u", transferSize := 100 }] ∧
    (70 : ℚ) ≠ 100 := by
  have hmut : (applyWaste (effectiveWastedBytesByUrl {} okResults) cexGraph emptyMap).1 =
      [GraphNode.network { requestId := "r1", url := "u", transferSize := 70 }] := by
    norm_num [applyWaste, effectiveWastedBytesByUrl, sumWastedBytes, mapSet, emptyMap,
      cexGraph, okResults, okRecord]
  have h1 : cexSim.simulate cexGraph (beforeLabel "a" {}) =
      Except.ok { timeInMs := 100, nodeTimings := () } := by
    simp [cexSim]
  have h2 : cexSim.simulate
      [GraphNode.network { requestId := "r1", url := "u", transferSize := 70 }]
      (afterLabel "a" {}) = Except.error "boom" := by
    norm_num [cexSim, cexGraph, okRecord]
  refine ⟨?_, ?_, by norm_num [cexGraph, okRecord], by norm_num⟩ <;>
    simp only [computeWasteWithGraph, h1, hmut, h2]

/-- C1 (amended): when no simulator error escapes — the call returns normally —
and the graph's network request identifiers are distinct (the spec's "unique
request identifier"), the returned graph state equals the pre-call graph:
every node's `transferSize` is restored.  On the error path of the second
simulation the mutation is not undone (see the counterexample). -/
theorem computeWasteWithGraph_transactional {τ : Type} (metaId : String)
    (results : List ByteItem) (graph : Graph) (simulator : Simulator τ)
    (options : WasteOptions) (res : WasteResult τ)
    (hNodup : (requestIds graph).Nodup)
    (hOk : (computeWasteWithGraph metaId results graph simulator options).1 = Except.ok res) :
    (computeWasteWithGraph metaId results graph simulator options).2 = graph := by
  cases h1 : simulator.simulate graph (beforeLabel metaId options) with
  | error e =>
    simp only [computeWasteWithGraph, h1] at hOk
    exact absurd hOk (by simp)
  | ok b =>
    cases h2 : simulator.simulate
        ((applyWaste (effectiveWastedBytesByUrl options results) graph emptyMap).1)
        (afterLabel metaId options) with
    | error e =>
      simp only [computeWasteWithGraph, h1, h2] at hOk
      exact absurd hOk (by simp)
    | ok a =>
      simp only [computeWasteWithGraph, h1, h2]
      exact restore_applyWaste _ graph emptyMap hNodup fun k _ => rfl

theorem computeWasteWithGraph_transactional_witness :
    (computeWasteWithGraph "a" okResults okGraph okSim {}).2 = okGraph :=
  computeWasteWithGraph_transactional "a" okResults okGraph okSim {}
    { savings := roundSavings (100 - 100)
      simulationBeforeChanges := { timeInMs := 100, nodeTimings := () }
      simulationAfterChanges := { timeInMs := 100, nodeTimings := () } }
    (by simp [requestIds, okGraph, okRecord]) rfl

/-! ## C2: which nodes the mutation step overwrites -/

/-- C2 counterexample: a negative map entry is truthy in JavaScript, so the
guard `if (!wastedBytes) return` does not skip it: the node with url `u` is
overwritten even though its entry (-50) is not strictly positive, and its
`transferSize` increases from 100 to 150. -/
theorem applyWaste_negative_entry_mutates :
    (applyWaste negMap [GraphNode.network okRecord] emptyMap).1 =
      [GraphNode.network { requestId := "r1", url := "u", transferSize := 150 }] ∧
    negMap "u" = some (-50) ∧ ¬ (0 : ℚ) < -50 ∧
    okRecord.transferSize = 100 ∧ (100 : ℚ) < 150 := by
  refine ⟨?_, by simp [negMap, mapSet, emptyMap], by norm_num, rfl, by norm_num⟩
  norm_num [applyWaste, negMap, mapSet, emptyMap, okRecord]

/-- C2 (amended): the mutation step rewrites exactly the network nodes whose
url has a nonzero (in JavaScript: truthy) map entry, to
`max(original - wastedBytes, 0)`; when every map entry is non-negative — as
the spec's data model guarantees for detector-produced items — this means
exactly the strictly positive entries, every applied `wastedBytes` is ≥ 0, and
no node with a non-negative `transferSize` ever increases. -/
theorem applyWaste_mutation_spec (w : UrlMap) (g : Graph) (originals : UrlMap)
    (hw : ∀ u v, w u = some v → 0 ≤ v) :
    (applyWaste w g originals).1 = g.map (mutateOne w) ∧
    (∀ r : NodeRecord, ∀ wb : ℚ, w r.url = some wb → 0 < wb →
      mutateOne w (GraphNode.network r) =
          GraphNode.network { r with transferSize := max (r.transferSize - wb) 0 } ∧
        0 ≤ wb ∧
        (0 ≤ r.transferSize → max (r.transferSize - wb) 0 ≤ r.transferSize)) ∧
    (∀ r : NodeRecord, w r.url = none → mutateOne w (GraphNode.network r) = GraphNode.network r) ∧
    (∀ r : NodeRecord, ∀ wb : ℚ, w r.url = some wb → ¬ 0 < wb →
      mutateOne w (GraphNode.network r) = GraphNode.network r) ∧
    (∀ i : ℕ, mutateOne w (GraphNode.cpu i) = GraphNode.cpu i) := by
  refine ⟨applyWaste_fst w g originals, ?_, ?_, ?_, fun i => rfl⟩
  · intro r wb hs hpos
    refine ⟨by simp [mutateOne, hs, ne_of_gt hpos], le_of_lt hpos, fun hts => ?_⟩
    exact max_le (by linarith) hts
  · intro r hs
    simp [mutateOne, hs]
  · intro r wb hs hnonpos
    have hz : wb = 0 := le_antisymm (not_lt.mp hnonpos) (hw _ _ hs)
    simp [mutateOne, hs, hz]

theorem applyWaste_mutation_spec_witness :
    (applyWaste posMap [GraphNode.network okRecord, GraphNode.cpu 7] emptyMap).1 =
      [GraphNode.network okRecord, GraphNode.cpu 7].map (mutateOne posMap) ∧
    mutateOne posMap (GraphNode.network okRecord) =
      GraphNode.network { okRecord with transferSize := max (okRecord.transferSize - 30) 0 } ∧
    max (okRecord.transferSize - 30) 0 ≤ okRecord.transferSize ∧
    mutateOne posMap (GraphNode.cpu 7) = GraphNode.cpu 7 := by
  have hw : ∀ u v, posMap u = some v → 0 ≤ v := by
    intro u v h
    by_cases hu : u = "u" <;> simp [posMap, mapSet, emptyMap, hu] at h
    rw [← h]
    norm_num
  have h := applyWaste_mutation_spec posMap [GraphNode.network okRecord, GraphNode.cpu 7]
    emptyMap hw
  refine ⟨h.1, (h.2.1 okRecord 30 ?_ (by norm_num)).1,
    (h.2.1 okRecord 30 ?_ (by norm_num)).2.2 ?_, h.2.2.2.2 7⟩
  · simp [posMap, mapSet, emptyMap, okRecord]
  · simp [posMap, mapSet, emptyMap, okRecord]
  · norm_num [okRecord]

/-! ## C4: savings are clamped and rounded to the nearest 10 ms -/

/-- C4: a successful `computeWasteWithGraph` returns
`savings = round(max(before.timeInMs - after.timeInMs, 0) / 10) * 10` for the
very simulation results it returns — a non-negative multiple of 10 within 5 ms
of the clamped delta — and a successful `computeWasteWithTTIGraph` likewise
returns a non-negative multiple of 10. -/
theorem savings_rounding_spec {τ : Type} (metaId : String) (results : List ByteItem)
    (graph : Graph) (simulator : Simulator τ) (options : WasteOptions)
    (toptions : TTIOptions) (lastLongTaskEndTime : τ → ℚ) :
    (∀ res : WasteResult τ,
      (computeWasteWithGraph metaId results graph simulator options).1 = Except.ok res →
        res.savings =
            roundSavings
              (res.simulationBeforeChanges.timeInMs - res.simulationAfterChanges.timeInMs) ∧
          |res.savings -
              max (res.simulationBeforeChanges.timeInMs - res.simulationAfterChanges.timeInMs)
                0| ≤ 5 ∧
          (∃ k : ℤ, 0 ≤ k ∧ res.savings = k * 10)) ∧
    (∀ s : ℚ,
      (computeWasteWithTTIGraph metaId lastLongTaskEndTime results graph simulator toptions).1 =
          Except.ok s →
        ∃ k : ℤ, 0 ≤ k ∧ s = k * 10) := by
  constructor
  · intro res hOk
    cases h1 : simulator.simulate graph (beforeLabel metaId options) with
    | error e =>
      simp only [computeWasteWithGraph, h1] at hOk
      exact absurd hOk (by simp)
    | ok b =>
      cases h2 : simulator.simulate
          ((applyWaste (effectiveWastedBytesByUrl options results) graph emptyMap).1)
          (afterLabel metaId options) with
      | error e =>
        simp only [computeWasteWithGraph, h1, h2] at hOk
        exact absurd hOk (by simp)
      | ok a =>
        simp only [computeWasteWithGraph, h1, h2, Except.ok.injEq] at hOk
        subst hOk
        have hk := roundSavings_mul10 (b.timeInMs - a.timeInMs)
        exact ⟨rfl, roundSavings_close _, hk⟩
  · intro s hOk
    cases hcw : (computeWasteWithGraph metaId results graph simulator
        { label := some "overallLoad"
          providedWastedBytesByUrl := toptions.providedWastedBytesByUrl }).1 with
    | error e =>
      simp only [computeWasteWithTTIGraph, hcw] at hOk
      exact absurd hOk (by simp)
    | ok r =>
      simp only [computeWasteWithTTIGraph, hcw, Except.ok.injEq] at hOk
      subst hOk
      exact roundSavings_mul10 _

theorem savings_rounding_spec_witness :
    |roundSavings ((100 : ℚ) - 100) - max ((100 : ℚ) - 100) 0| ≤ 5 ∧
    (∃ k : ℤ, 0 ≤ k ∧ roundSavings ((100 : ℚ) - 100) = k * 10) ∧
    (∃ k : ℤ, 0 ≤ k ∧
      roundSavings (max ((0 : ℚ) - 0) (roundSavings ((100 : ℚ) - 100))) = k * 10) := by
  have h := (savings_rounding_spec "a" okResults okGraph okSim {} {} fun _ => 0).1
    { savings := roundSavings (100 - 100)
      simulationBeforeChanges := { timeInMs := 100, nodeTimings := () }
      simulationAfterChanges := { timeInMs := 100, nodeTimings := () } } rfl
  have h2 := (savings_rounding_spec "a" okResults okGraph okSim {} {} fun _ => 0).2
    (roundSavings (max ((0 : ℚ) - 0) (roundSavings ((100 : ℚ) - 100)))) rfl
  exact ⟨h.2.1, h.2.2, h2⟩

/-! ## C9: an empty wasted-bytes map is a no-op -/

/-- C9: when the effective wasted-bytes map is empty (an explicitly provided
empty map, or no provided map and an empty results list) and the simulator is
deterministic (label-independent on identical graphs), a successful
`computeWasteWithGraph` has identical before/after results, savings 0, and
leaves the graph untouched, because no node is modified between the runs. -/
theorem computeWasteWithGraph_empty_spec {τ : Type} (metaId : String)
    (results : List ByteItem) (graph : Graph) (simulator : Simulator τ)
    (options : WasteOptions)
    (hEmpty : options.providedWastedBytesByUrl = some emptyMap ∨
      (options.providedWastedBytesByUrl = none ∧ results = []))
    (hDet : ∀ (g : Graph) (l l' : String), simulator.simulate g l = simulator.simulate g l')
    (res : WasteResult τ)
    (hOk : (computeWasteWithGraph metaId results graph simulator options).1 = Except.ok res) :
    res.savings = 0 ∧
      res.simulationBeforeChanges = res.simulationAfterChanges ∧
      (computeWasteWithGraph metaId results graph simulator options).2 = graph := by
  have hw : effectiveWastedBytesByUrl options results = emptyMap := by
    rcases hEmpty with h | ⟨h, hres⟩
    · simp [effectiveWastedBytesByUrl, h]
    · simp [effectiveWastedBytesByUrl, h, hres, sumWastedBytes]
  have hmut : applyWaste (effectiveWastedBytesByUrl options results) graph emptyMap =
      (graph, emptyMap) := by
    rw [hw]
    exact applyWaste_emptyMap graph emptyMap
  cases h1 : simulator.simulate graph (beforeLabel metaId options) with
  | error e =>
    simp only [computeWasteWithGraph, h1] at hOk
    exact absurd hOk (by simp)
  | ok b =>
    have h2 : simulator.simulate
        ((applyWaste (effectiveWastedBytesByUrl options results) graph emptyMap).1)
        (afterLabel metaId options) = Except.ok b := by
      rw [hmut]
      exact (hDet graph (afterLabel metaId options) (beforeLabel metaId options)).trans h1
    simp only [computeWasteWithGraph, h1, h2, Except.ok.injEq] at hOk ⊢
    subst hOk
    refine ⟨?_, rfl, ?_⟩
    · show roundSavings (b.timeInMs - b.timeInMs) = 0
      rw [sub_self]
      norm_num [roundSavings, jsRound]
    · rw [hmut]
      exact restore_emptyMap graph

theorem computeWasteWithGraph_empty_spec_witness :
    roundSavings ((100 : ℚ) - 100) = 0 ∧
      (computeWasteWithGraph "a" ([] : List ByteItem) okGraph okSim {}).2 = okGraph :=
  have h := computeWasteWithGraph_empty_spec "a" [] okGraph okSim {}
    (Or.inr ⟨rfl, rfl⟩) (fun _ _ _ => rfl)
    { savings := roundSavings (100 - 100)
      simulationBeforeChanges := { timeInMs := 100, nodeTimings := () }
      simulationAfterChanges := { timeInMs := 100, nodeTimings := () } } rfl
  ⟨h.1, h.2.2⟩

/-! ## The sort performed by createAuditProduct -/

theorem insertItem_perm (a : ByteItem) :
    ∀ l : List ByteItem, List.Perm (insertItem a l) (a :: l) := by
  intro l
  induction l with
  | nil => exact List.Perm.refl _
  | cons b rest ih =>
    by_cases h : b.wastedBytes < a.wastedBytes
    · simp only [insertItem, if_pos h]
      exact List.Perm.refl _
    · simp only [insertItem, if_neg h]
      exact (ih.cons b).trans (List.Perm.swap a b rest)

theorem sortDesc_foldl_perm :
    ∀ l acc : List ByteItem,
      List.Perm (List.foldl (fun acc x => insertItem x acc) acc l) (acc ++ l) := by
  intro l
  induction l with
  | nil => intro acc; simp
  | cons x rest ih =>
    intro acc
    simp only [List.foldl_cons]
    refine (ih (insertItem x acc)).trans ?_
    refine ((insertItem_perm x acc).append_right rest).trans ?_
    simpa using List.perm_middle.symm

/-- The in-place sort is a permutation of the original items. -/
theorem sortDesc_perm (l : List ByteItem) : List.Perm (sortDesc l) l := by
  simpa [sortDesc] using sortDesc_foldl_perm l []

theorem insertItem_sorted (a : ByteItem) :
    ∀ l : List ByteItem,
      List.Sorted (fun x y => y.wastedBytes ≤ x.wastedBytes) l →
      List.Sorted (fun x y => y.wastedBytes ≤ x.wastedBytes) (insertItem a l) := by
  intro l
  induction l with
  | nil => intro _; simp [insertItem]
  | cons b rest ih =>
    intro h
    rw [List.sorted_cons] at h
    by_cases hba : b.wastedBytes < a.wastedBytes
    · simp only [insertItem, if_pos hba]
      rw [List.sorted_cons]
      refine ⟨?_, List.sorted_cons.mpr h⟩
      intro x hx
      rcases List.mem_cons.mp hx with rfl | hx'
      · exact le_of_lt hba
      · exact le_trans (h.1 x hx') (le_of_lt hba)
    · simp only [insertItem, if_neg hba]
      rw [List.sorted_cons]
      refine ⟨?_, ih h.2⟩
      intro x hx
      rcases List.mem_cons.mp ((insertItem_perm a rest).mem_iff.mp hx) with rfl | hx'
      · exact not_lt.mp hba
      · exact h.1 x hx'

theorem sortDesc_foldl_sorted :
    ∀ l acc : List ByteItem,
      List.Sorted (fun x y => y.wastedBytes ≤ x.wastedBytes) acc →
      List.Sorted (fun x y => y.wastedBytes ≤ x.wastedBytes)
        (List.foldl (fun acc x => insertItem x acc) acc l) := by
  intro l
  induction l with
  | nil => intro acc h; exact h
  | cons x rest ih =>
    intro acc h
    simp only [List.foldl_cons]
    exact ih (insertItem x acc) (insertItem_sorted x acc h)

/-- The sorted items are in descending `wastedBytes` order. -/
theorem sortDesc_sorted (l : List ByteItem) :
    List.Sorted (fun x y => y.wastedBytes ≤ x.wastedBytes) (sortDesc l) :=
  sortDesc_foldl_sorted l [] (by simp)

/-! ## C10: createAuditProduct reorders the caller's items array -/

/-- C10: `result.items.sort(...)` on line 248 sorts the caller's array in
place, before anything can throw: on every path — all four error paths
included — the post-call state of the caller's items array is the descending
(by `wastedBytes`) permutation of its pre-call contents, and on the concrete
two-item array `[("a", 1), ("b", 5)]` that post-call state differs from the
pre-call one, an observable mutation of the input. -/
theorem createAuditProduct_sorts_in_place :
    (∀ (τ ν : Type) (metaId : String) (lastLongTaskEndTime : τ → ℚ)
        (fcpPessimisticGraph lcpPessimisticGraph : Graph → ν → Graph)
        (result : DetectorResult) (graph : Option Graph) (simulator : Simulator τ)
        (processedNavigation : Option ν) (gatherMode : String),
      (createAuditProduct metaId lastLongTaskEndTime fcpPessimisticGraph lcpPessimisticGraph
          result graph simulator processedNavigation gatherMode).2 = sortDesc result.items) ∧
    (∀ items : List ByteItem,
      List.Perm (sortDesc items) items ∧
        List.Sorted (fun x y => y.wastedBytes ≤ x.wastedBytes) (sortDesc items)) ∧
    sortDesc [{ url := "a", wastedBytes := 1 }, { url := "b", wastedBytes := 5 }] ≠
      [{ url := "a", wastedBytes := 1 }, { url := "b", wastedBytes := 5 }] := by
  refine ⟨?_, fun items => ⟨sortDesc_perm items, sortDesc_sorted items⟩, ?_⟩
  · intro τ ν metaId llte fcp lcp result graph simulator nav gatherMode
    unfold createAuditProduct
    dsimp only
    split
    · split
      · rfl
      · split
        · rfl
        · split
          · rfl
          · split
            · rfl
            · split <;> rfl
    · rfl
  · norm_num [sortDesc, insertItem]

/-! ## C7: navigation-mode precondition checks -/

/-- A never-throwing simulator makes `computeWasteWithGraph` succeed. -/
theorem computeWasteWithGraph_total {τ : Type} (metaId : String) (results : List ByteItem)
    (graph : Graph) (simulator : Simulator τ) (options : WasteOptions)
    (hSim : ∀ (g : Graph) (l : String), ∃ r, simulator.simulate g l = Except.ok r) :
    ∃ res, (computeWasteWithGraph metaId results graph simulator options).1 = Except.ok res := by
  obtain ⟨b, hb⟩ := hSim graph (beforeLabel metaId options)
  obtain ⟨a, ha⟩ := hSim ((applyWaste (effectiveWastedBytesByUrl options results) graph
    emptyMap).1) (afterLabel metaId options)
  exact ⟨{ savings := roundSavings (b.timeInMs - a.timeInMs)
           simulationBeforeChanges := b
           simulationAfterChanges := a },
    by simp only [computeWasteWithGraph, hb, ha]⟩

/-- A never-throwing simulator makes `computeWasteWithTTIGraph` succeed. -/
theorem computeWasteWithTTIGraph_total {τ : Type} (metaId : String)
    (lastLongTaskEndTime : τ → ℚ) (results : List ByteItem) (graph : Graph)
    (simulator : Simulator τ) (options : TTIOptions)
    (hSim : ∀ (g : Graph) (l : String), ∃ r, simulator.simulate g l = Except.ok r) :
    ∃ s, (computeWasteWithTTIGraph metaId lastLongTaskEndTime results graph simulator
      options).1 = Except.ok s := by
  obtain ⟨r, hr⟩ := computeWasteWithGraph_total metaId results graph simulator
    { label := some "overallLoad", providedWastedBytesByUrl := options.providedWastedBytesByUrl }
    hSim
  exact ⟨roundSavings
      (if options.includeLoad.getD true then
        max (lastLongTaskEndTime r.simulationBeforeChanges.nodeTimings -
          lastLongTaskEndTime r.simulationAfterChanges.nodeTimings) r.savings
      else
        lastLongTaskEndTime r.simulationBeforeChanges.nodeTimings -
          lastLongTaskEndTime r.simulationAfterChanges.nodeTimings),
    by simp only [computeWasteWithTTIGraph, hr]⟩

/-- C7: in navigation mode `createAuditProduct` throws exactly when the graph
or the processed navigation is absent — the two specific precondition errors,
raised for every simulator alike, hence before any simulation result can
matter — and with both present (and a never-throwing simulator) it succeeds;
in any other gather mode their absence causes no error at all. -/
theorem createAuditProduct_precondition_spec {τ ν : Type} (metaId : String)
    (lastLongTaskEndTime : τ → ℚ) (fcpPessimisticGraph lcpPessimisticGraph : Graph → ν → Graph)
    (result : DetectorResult) (graph : Option Graph) (simulator : Simulator τ)
    (processedNavigation : Option ν) (gatherMode : String) :
    (gatherMode = "navigation" → graph = none →
      (createAuditProduct metaId lastLongTaskEndTime fcpPessimisticGraph lcpPessimisticGraph
          result graph simulator processedNavigation gatherMode).1 =
        Except.error "Page dependency graph should always be computed in navigation mode") ∧
    (gatherMode = "navigation" → graph ≠ none → processedNavigation = none →
      (createAuditProduct metaId lastLongTaskEndTime fcpPessimisticGraph lcpPessimisticGraph
          result graph simulator processedNavigation gatherMode).1 =
        Except.error "Processed navigation should always be computed in navigation mode") ∧
    (gatherMode = "navigation" → graph ≠ none → processedNavigation ≠ none →
      (∀ (g : Graph) (l : String), ∃ r, simulator.simulate g l = Except.ok r) →
      ∃ p, (createAuditProduct metaId lastLongTaskEndTime fcpPessimisticGraph
          lcpPessimisticGraph result graph simulator processedNavigation gatherMode).1 =
        Except.ok p) ∧
    (gatherMode ≠ "navigation" →
      ∃ p, (createAuditProduct metaId lastLongTaskEndTime fcpPessimisticGraph
          lcpPessimisticGraph result graph simulator processedNavigation gatherMode).1 =
        Except.ok p) := by
  refine ⟨?_, ?_, ?_, ?_⟩
  · intro hm hg
    subst hm hg
    simp [createAuditProduct]
  · intro hm hg hn
    obtain ⟨g, rfl⟩ := Option.ne_none_iff_exists'.mp hg
    subst hm hn
    simp [createAuditProduct]
  · intro hm hg hn hSim
    obtain ⟨g, rfl⟩ := Option.ne_none_iff_exists'.mp hg
    obtain ⟨nav, rfl⟩ := Option.ne_none_iff_exists'.mp hn
    subst hm
    obtain ⟨wastedMs, hTTI⟩ := computeWasteWithTTIGraph_total metaId lastLongTaskEndTime
      (sortDesc result.items) g simulator
      { providedWastedBytesByUrl := result.wastedBytesByUrl } hSim
    obtain ⟨fcpResult, hFcp⟩ := computeWasteWithGraph_total metaId (sortDesc result.items)
      (fcpPessimisticGraph g nav) simulator
      { label := some "fcp", providedWastedBytesByUrl := result.wastedBytesByUrl } hSim
    obtain ⟨lcpResult, hLcp⟩ := computeWasteWithGraph_total metaId (sortDesc result.items)
      (lcpPessimisticGraph g nav) simulator
      { label := some "lcp", providedWastedBytesByUrl := result.wastedBytesByUrl } hSim
    exact ⟨finishProduct result (sortDesc result.items)
        (List.foldl (fun sum item => sum + item.wastedBytes) 0 (sortDesc result.items)) wastedMs
        { FCP := fcpResult.savings, LCP := lcpResult.savings },
      by simp [createAuditProduct, hTTI, hFcp, hLcp]⟩
  · intro hm
    exact ⟨finishProduct result (sortDesc result.items)
        (List.foldl (fun sum item => sum + item.wastedBytes) 0 (sortDesc result.items))
        (simulator.computeWastedMsFromWastedBytes
          (List.foldl (fun sum item => sum + item.wastedBytes) 0 (sortDesc result.items)))
        { FCP := 0, LCP := 0 },
      by simp [createAuditProduct, hm]⟩

theorem createAuditProduct_precondition_spec_witness :
    (createAuditProduct "a" (fun _ : Unit => (0 : ℚ)) (fun g _ => g) (fun g _ => g)
        { items := [] } none okSim (none : Option Unit) "navigation").1 =
      Except.error "Page dependency graph should always be computed in navigation mode" ∧
    (createAuditProduct "a" (fun _ : Unit => (0 : ℚ)) (fun g _ => g) (fun g _ => g)
        { items := [] } (some okGraph) okSim (none : Option Unit) "navigation").1 =
      Except.error "Processed navigation should always be computed in navigation mode" ∧
    (∃ p, (createAuditProduct "a" (fun _ : Unit => (0 : ℚ)) (fun g _ => g) (fun g _ => g)
        { items := [] } (some okGraph) okSim (some ()) "navigation").1 = Except.ok p) ∧
    (∃ p, (createAuditProduct "a" (fun _ : Unit => (0 : ℚ)) (fun g _ => g) (fun g _ => g)
        { items := [] } none okSim (none : Option Unit) "timespan").1 = Except.ok p) :=
  ⟨(createAuditProduct_precondition_spec "a" _ _ _ { items := [] } none okSim none
      "navigation").1 rfl rfl,
   (createAuditProduct_precondition_spec "a" _ _ _ { items := [] } (some okGraph) okSim none
      "navigation").2.1 rfl (by simp) rfl,
   (createAuditProduct_precondition_spec "a" _ _ _ { items := [] } (some okGraph) okSim
      (some ()) "navigation").2.2.1 rfl (by simp) (by simp)
      (fun g l => ⟨{ timeInMs := 100, nodeTimings := () }, rfl⟩),
   (createAuditProduct_precondition_spec "a" _ _ _ { items := [] } none okSim none
      "timespan").2.2.2 (by simp)⟩

/-! ## C8: timespan mode with no measurable transfer is not applicable -/

/-- C8: when no network record carries a truthy `transferSize` and the gather
mode is `timespan`, `audit` returns exactly `{score: 1, notApplicable: true}`
— for every detector hook and every collaborator implementation alike, so
neither the detector nor the graph builder, load simulator or any simulation
can have been consulted. -/
theorem audit_timespan_notApplicable {δ θ υ τ ν : Type} (metaId : String)
    (detector : Artifacts δ θ υ → List NetRecord → Except String DetectorResult)
    (co : Collaborators δ θ υ τ ν) (artifacts : Artifacts δ θ υ)
    (hMode : artifacts.gatherMode = "timespan")
    (hNo : ∀ r ∈ co.networkRecords artifacts.devtoolsLog,
      ∀ t : ℚ, r.transferSize = some t → t = 0) :
    audit metaId detector co artifacts = Except.ok (AuditOutcome.notApplicable 1) := by
  unfold audit
  rw [if_pos]
  refine ⟨?_, hMode⟩
  rw [Bool.not_eq_true, List.any_eq_false]
  intro r hr
  cases ht : r.transferSize with
  | none => simp
  | some t =>
    have ht0 := hNo r hr t ht
    subst ht0
    dsimp only
    intro hcontra
    rw [decide_eq_true_eq] at hcontra
    exact hcontra rfl

/-- Fixed artifacts for the C8 witness: a timespan capture. -/
def tsArtifacts : Artifacts Unit Unit Unit :=
  { gatherMode := "timespan", trace := (), devtoolsLog := (), url := () }

/-- Collaborators whose network records carry no measured transfer size. -/
def tsCollab : Collaborators Unit Unit Unit Unit Unit :=
  { networkRecords := fun _ => [{ transferSize := none }, { transferSize := some 0 }]
    pageDependencyGraph := fun _ _ _ => []
    loadSimulator := fun _ => okSim
    processedNavigation := fun _ => ()
    lastLongTaskEndTime := fun _ => 0
    fcpPessimisticGraph := fun g _ => g
    lcpPessimisticGraph := fun g _ => g }

theorem audit_timespan_notApplicable_witness :
    audit "a" (fun _ _ => Except.error "detector must not be consulted") tsCollab tsArtifacts =
      Except.ok (AuditOutcome.notApplicable 1) :=
  audit_timespan_notApplicable "a" _ tsCollab tsArtifacts rfl (by
    intro r hr t ht
    simp only [tsCollab, tsArtifacts, List.mem_cons, List.not_mem_nil, or_false] at hr
    rcases hr with rfl | rfl
    · exact Option.noConfusion ht
    · exact (Option.some.injEq _ _ ▸ ht).symm)

end ByteEfficiency
